import Mathlib

/-!
Verification development for the Botie voice-agent server
(`src/server.js`, with the `cleanupConnection` variant in
`src/unnamed/part_001` and helpers in `src/util/`).

The per-call WebSocket handler of `src/server.js` (the
`wss.on('connection', ...)` closure, lines 127-348) is embedded as an
explicit state machine: the closure variables become fields of
`ServerState`, the registered event handlers become the cases of
`stepServer`, and the externally visible actions (`connection.send`,
`wsTwilio.send`, `wsTwilio.close`, the summarization fetch) become
output logs in the state.  Base64 decoding of media payloads is treated
as already done: an audio payload is its decoded byte list.
-/

/-- One transcript turn, as pushed onto `conversationHistory` in
`src/server.js` lines 192-196 (the timestamp string is irrelevant to
every claim and omitted). -/
structure Turn where
  role : String
  content : String
deriving DecidableEq, Repr

/-- A frame written to the Twilio WebSocket.  `src/server.js` only ever
builds `event: 'media'` frames (lines 176-180); a barge-in "clear"
frame would carry `event = "clear"`.  The base64 payload is kept as the
decoded byte list. -/
structure TwilioFrame where
  event : String
  streamSid : String
  payload : List Nat
deriving DecidableEq, Repr

/-- The mutable state of one `wss.on('connection')` closure in
`src/server.js` (lines 129-138), together with logs of the observable
outputs.  `sentToAgent` records each `connection.send(...)` of audio,
`sentToTwilio` each `wsTwilio.send(...)`, `sentAgentControls` each
control message sent to the agent connection (the source never sends
one, so no step ever appends to it), and `summarizeCalls` each
invocation of the post-call summarization fetch with its transcript
snapshot (lines 241-303). -/
structure ServerState where
  audioBuffer : List Nat
  streamSid : Option String
  callSid : Option String
  isAgentReady : Bool
  tradieData : Option String
  conversationHistory : List Turn
  wsOpen : Bool
  closeRequested : Bool
  keepAliveOn : Bool
  agentConnected : Bool
  sentToAgent : List (List Nat)
  sentToTwilio : List TwilioFrame
  sentAgentControls : List String
  summarizeCalls : List (List Turn)
deriving DecidableEq, Repr

/-- Initial closure state (`src/server.js` lines 129-138). -/
def initServerState : ServerState :=
  { audioBuffer := []
    streamSid := none
    callSid := none
    isAgentReady := false
    tradieData := none
    conversationHistory := []
    wsOpen := true
    closeRequested := false
    keepAliveOn := false
    agentConnected := true
    sentToAgent := []
    sentToTwilio := []
    sentAgentControls := []
    summarizeCalls := [] }

/-- The events delivered to the per-call closure: the Deepgram agent
events `Welcome`, `Audio`, `ConversationText`, the Twilio WebSocket
`message` events (`media` and `start`) and `close`, plus an interim
(non-final) recognition event, for which `src/server.js` registers no
handler at all. -/
inductive Ev where
  | welcome
  | media (payload : List Nat)
  | start (sid csid : String)
  | agentAudio (chunk : List Nat)
  | convText (role content : String)
  | interim
  | twilioClose
deriving DecidableEq, Repr

/-- One step of the per-call state machine, translated handler by
handler from `src/server.js`:

* `welcome` — lines 140-172: configure, set `isAgentReady = true`, if
  `audioBuffer.length > 0` send the (single, concatenated) buffer to
  the agent and reset it, start the keep-alive interval.
* `media` — lines 210-216: if ready, forward the chunk to the agent;
  else concatenate it onto `audioBuffer`.
* `start` — lines 217-230: record `streamSid` and `callSid`; if the
  registry (`tempTradieData`, modelled by `env`) has an entry for the
  call SID, load it into `tradieData`, otherwise leave it unchanged.
* `agentAudio` — lines 174-182: if `streamSid` is set, send a media
  frame to Twilio; otherwise do nothing (the chunk is dropped — there
  is no pending-outbound queue in the source).
* `convText` — lines 188-205: unconditionally append the turn to
  `conversationHistory`; then, if the role is `"assistant"` and the
  content is exactly `"BYE"` and the socket is open, request
  `wsTwilio.close()`.
* `interim` — no handler is registered for interim recognition
  results, so the state is unchanged.
* `twilioClose` — lines 237-348: if the history is non-empty AND
  `tradieData` is set, run the summarization call with the current
  history; then clear the registry entries, stop keep-alive and
  disconnect the agent connection. -/
def stepServer (env : String → Option String) (s : ServerState) : Ev → ServerState
  | .welcome =>
      { s with isAgentReady := true
               sentToAgent :=
                 s.sentToAgent ++ (if s.audioBuffer.isEmpty then [] else [s.audioBuffer])
               audioBuffer := []
               keepAliveOn := true }
  | .media p =>
      if s.isAgentReady then
        { s with sentToAgent := s.sentToAgent ++ [p] }
      else
        { s with audioBuffer := s.audioBuffer ++ p }
  | .start sid csid =>
      { s with streamSid := some sid
               callSid := some csid
               tradieData :=
                 match env csid with
                 | some d => some d
                 | none => s.tradieData }
  | .agentAudio c =>
      match s.streamSid with
      | some sid =>
          { s with sentToTwilio := s.sentToTwilio ++ [⟨"media", sid, c⟩] }
      | none => s
  | .convText r c =>
      let s1 := { s with conversationHistory := s.conversationHistory ++ [⟨r, c⟩] }
      if r == "assistant" && c == "BYE" then
        (if s.wsOpen then { s1 with closeRequested := true } else s1)
      else s1
  | .interim => s
  | .twilioClose =>
      let s1 := { s with wsOpen := false }
      let s2 :=
        if !s1.conversationHistory.isEmpty && s1.tradieData.isSome then
          { s1 with summarizeCalls := s1.summarizeCalls ++ [s1.conversationHistory] }
        else s1
      { s2 with keepAliveOn := false, agentConnected := false }

/-- Run the per-call machine from the initial closure state. -/
def runServer (env : String → Option String) (tr : List Ev) : ServerState :=
  tr.foldl (stepServer env) initServerState

/-- The inbound caller audio carried by a trace, in arrival order. -/
def mediaPayloads (tr : List Ev) : List (List Nat) :=
  tr.filterMap (fun e => match e with | .media p => some p | _ => none)

lemma step_welcome_eq (env : String → Option String) (s : ServerState) :
    stepServer env s .welcome
      = { s with isAgentReady := true
                 sentToAgent :=
                   s.sentToAgent ++ (if s.audioBuffer.isEmpty then [] else [s.audioBuffer])
                 audioBuffer := []
                 keepAliveOn := true } := rfl

lemma step_media_ready (env : String → Option String) (s : ServerState) (p : List Nat)
    (h : s.isAgentReady = true) :
    stepServer env s (.media p) = { s with sentToAgent := s.sentToAgent ++ [p] } := by
  simp [stepServer, h]

lemma step_media_notReady (env : String → Option String) (s : ServerState) (p : List Nat)
    (h : s.isAgentReady = false) :
    stepServer env s (.media p) = { s with audioBuffer := s.audioBuffer ++ p } := by
  simp [stepServer, h]

lemma step_start_eq (env : String → Option String) (s : ServerState) (sid csid : String) :
    stepServer env s (.start sid csid)
      = { s with streamSid := some sid
                 callSid := some csid
                 tradieData :=
                   match env csid with
                   | some d => some d
                   | none => s.tradieData } := rfl

lemma step_agentAudio_some (env : String → Option String) (s : ServerState)
    (c : List Nat) (sid : String) (h : s.streamSid = some sid) :
    stepServer env s (.agentAudio c)
      = { s with sentToTwilio := s.sentToTwilio ++ [⟨"media", sid, c⟩] } := by
  simp [stepServer, h]

lemma step_agentAudio_none (env : String → Option String) (s : ServerState)
    (c : List Nat) (h : s.streamSid = none) :
    stepServer env s (.agentAudio c) = s := by
  simp [stepServer, h]

lemma step_interim_eq (env : String → Option String) (s : ServerState) :
    stepServer env s .interim = s := rfl

/-- The `ConversationText` handler leaves every field other than
`conversationHistory` and `closeRequested` unchanged. -/
lemma step_convText_preserves (env : String → Option String) (s : ServerState)
    (r c : String) :
    (stepServer env s (.convText r c)).audioBuffer = s.audioBuffer ∧
    (stepServer env s (.convText r c)).isAgentReady = s.isAgentReady ∧
    (stepServer env s (.convText r c)).sentToAgent = s.sentToAgent ∧
    (stepServer env s (.convText r c)).sentToTwilio = s.sentToTwilio ∧
    (stepServer env s (.convText r c)).sentAgentControls = s.sentAgentControls ∧
    (stepServer env s (.convText r c)).summarizeCalls = s.summarizeCalls ∧
    (stepServer env s (.convText r c)).tradieData = s.tradieData ∧
    (stepServer env s (.convText r c)).wsOpen = s.wsOpen ∧
    (stepServer env s (.convText r c)).streamSid = s.streamSid := by
  simp only [stepServer]
  split
  · split
    · exact ⟨rfl, rfl, rfl, rfl, rfl, rfl, rfl, rfl, rfl⟩
    · exact ⟨rfl, rfl, rfl, rfl, rfl, rfl, rfl, rfl, rfl⟩
  · exact ⟨rfl, rfl, rfl, rfl, rfl, rfl, rfl, rfl, rfl⟩

/-- The `close` handler leaves the audio fields, output audio logs and
transcript unchanged. -/
lemma step_twilioClose_preserves (env : String → Option String) (s : ServerState) :
    (stepServer env s .twilioClose).audioBuffer = s.audioBuffer ∧
    (stepServer env s .twilioClose).isAgentReady = s.isAgentReady ∧
    (stepServer env s .twilioClose).sentToAgent = s.sentToAgent ∧
    (stepServer env s .twilioClose).sentToTwilio = s.sentToTwilio ∧
    (stepServer env s .twilioClose).sentAgentControls = s.sentAgentControls ∧
    (stepServer env s .twilioClose).conversationHistory = s.conversationHistory ∧
    (stepServer env s .twilioClose).streamSid = s.streamSid := by
  simp only [stepServer]
  split
  · exact ⟨rfl, rfl, rfl, rfl, rfl, rfl, rfl⟩
  · exact ⟨rfl, rfl, rfl, rfl, rfl, rfl, rfl⟩

/-- Readiness invariant: once the agent is ready the inbound buffer is
empty (the `Welcome` handler flushes and clears it, and ready-state
media bypasses it). -/
def ReadyInv (s : ServerState) : Prop :=
  s.isAgentReady = true → s.audioBuffer = []

lemma stepServer_readyInv (env : String → Option String) (s : ServerState) (e : Ev)
    (h : ReadyInv s) : ReadyInv (stepServer env s e) := by
  cases e with
  | welcome => intro _; rw [step_welcome_eq]
  | media p =>
      intro hr
      by_cases hready : s.isAgentReady = true
      · rw [step_media_ready env s p hready] at hr ⊢
        exact h hready
      · have hready' : s.isAgentReady = false := by
          simpa using hready
        rw [step_media_notReady env s p hready'] at hr
        exact absurd hr hready
  | start sid csid => intro hr; rw [step_start_eq] at hr ⊢; exact h hr
  | agentAudio c =>
      intro hr
      cases hsid : s.streamSid with
      | some sid =>
          rw [step_agentAudio_some env s c sid hsid] at hr ⊢
          exact h hr
      | none =>
          rw [step_agentAudio_none env s c hsid] at hr ⊢
          exact h hr
  | convText r c =>
      intro hr
      obtain ⟨hbuf, hready, -⟩ := step_convText_preserves env s r c
      rw [hbuf]
      exact h (by rw [← hready]; exact hr)
  | interim => intro hr; rw [step_interim_eq] at hr ⊢; exact h hr
  | twilioClose =>
      intro hr
      obtain ⟨hbuf, hready, -⟩ := step_twilioClose_preserves env s
      rw [hbuf]
      exact h (by rw [← hready]; exact hr)

/-- Single-step byte accounting: every step preserves
`flatten sentToAgent ++ audioBuffer = (previous value) ++ (bytes of the
event, if it is inbound media)`. -/
lemma stepServer_bytes (env : String → Option String) (s : ServerState) (e : Ev)
    (h : ReadyInv s) :
    (stepServer env s e).sentToAgent.flatten ++ (stepServer env s e).audioBuffer
      = s.sentToAgent.flatten ++ s.audioBuffer ++ (mediaPayloads [e]).flatten := by
  cases e with
  | welcome =>
      rw [step_welcome_eq]
      by_cases hb : s.audioBuffer.isEmpty
      · simp [mediaPayloads, hb, List.isEmpty_iff.mp hb]
      · simp [mediaPayloads, hb]
  | media p =>
      by_cases hready : s.isAgentReady = true
      · rw [step_media_ready env s p hready]
        simp [mediaPayloads, h hready]
      · have hready' : s.isAgentReady = false := by simpa using hready
        rw [step_media_notReady env s p hready']
        simp [mediaPayloads, List.append_assoc]
  | start sid csid => rw [step_start_eq]; simp [mediaPayloads]
  | agentAudio c =>
      cases hsid : s.streamSid with
      | some sid => rw [step_agentAudio_some env s c sid hsid]; simp [mediaPayloads]
      | none => rw [step_agentAudio_none env s c hsid]; simp [mediaPayloads]
  | convText r c =>
      obtain ⟨hbuf, -, hsent, -⟩ := step_convText_preserves env s r c
      rw [hbuf, hsent]
      simp [mediaPayloads]
  | interim => rw [step_interim_eq]; simp [mediaPayloads]
  | twilioClose =>
      obtain ⟨hbuf, -, hsent, -⟩ := step_twilioClose_preserves env s
      rw [hbuf, hsent]
      simp [mediaPayloads]

lemma mediaPayloads_cons (e : Ev) (rest : List Ev) :
    mediaPayloads (e :: rest) = mediaPayloads [e] ++ mediaPayloads rest := by
  cases e <;> simp [mediaPayloads]

/-- Trace-level byte accounting, by induction over the trace. -/
lemma foldl_stepServer_bytes (env : String → Option String) :
    ∀ (tr : List Ev) (s : ServerState), ReadyInv s →
      ReadyInv (tr.foldl (stepServer env) s) ∧
      (tr.foldl (stepServer env) s).sentToAgent.flatten
          ++ (tr.foldl (stepServer env) s).audioBuffer
        = s.sentToAgent.flatten ++ s.audioBuffer ++ (mediaPayloads tr).flatten := by
  intro tr
  induction tr with
  | nil =>
      intro s h
      exact ⟨h, by simp [mediaPayloads]⟩
  | cons e rest ih =>
      intro s h
      have hstep := stepServer_readyInv env s e h
      have hbytes := stepServer_bytes env s e h
      obtain ⟨hinv, heq⟩ := ih (stepServer env s e) hstep
      refine ⟨hinv, ?_⟩
      simp only [List.foldl_cons] at heq ⊢
      rw [heq, hbytes, mediaPayloads_cons e rest, List.flatten_append]
      simp [List.append_assoc]

lemma foldl_media_notReady (env : String → Option String) :
    ∀ (ps : List (List Nat)) (s : ServerState), s.isAgentReady = false →
      (ps.map Ev.media).foldl (stepServer env) s
        = { s with audioBuffer := s.audioBuffer ++ ps.flatten } := by
  intro ps
  induction ps with
  | nil => intro s h; simp
  | cons p rest ih =>
      intro s h
      simp only [List.map_cons, List.foldl_cons]
      rw [step_media_notReady env s p h,
          ih { s with audioBuffer := s.audioBuffer ++ p } h]
      simp [List.append_assoc]

lemma foldl_media_ready (env : String → Option String) :
    ∀ (ps : List (List Nat)) (s : ServerState), s.isAgentReady = true →
      (ps.map Ev.media).foldl (stepServer env) s
        = { s with sentToAgent := s.sentToAgent ++ ps } := by
  intro ps
  induction ps with
  | nil => intro s h; simp
  | cons p rest ih =>
      intro s h
      simp only [List.map_cons, List.foldl_cons]
      rw [step_media_ready env s p h,
          ih { s with sentToAgent := s.sentToAgent ++ [p] } h]
      simp [List.append_assoc]

lemma foldl_agentAudio_noSid (env : String → Option String) :
    ∀ (cs : List (List Nat)) (s : ServerState), s.streamSid = none →
      (cs.map Ev.agentAudio).foldl (stepServer env) s = s := by
  intro cs
  induction cs with
  | nil => intro s _; simp
  | cons c rest ih =>
      intro s h
      simp only [List.map_cons, List.foldl_cons]
      rw [step_agentAudio_none env s c h, ih _ h]

lemma foldl_agentAudio_sid (env : String → Option String) (sid : String) :
    ∀ (cs : List (List Nat)) (s : ServerState), s.streamSid = some sid →
      (cs.map Ev.agentAudio).foldl (stepServer env) s
        = { s with sentToTwilio :=
              s.sentToTwilio ++ cs.map (fun c => TwilioFrame.mk "media" sid c) } := by
  intro cs
  induction cs with
  | nil => intro s _; simp
  | cons c rest ih =>
      intro s h
      simp only [List.map_cons, List.foldl_cons]
      rw [step_agentAudio_some env s c sid h,
          ih { s with sentToTwilio := s.sentToTwilio ++ [⟨"media", sid, c⟩] } h]
      simp [List.append_assoc]

/-- C1: for every call session and every sequence of inbound caller
audio chunks, the audio delivered to the agent connection is the input
audio in order.  Chunks arriving before the `Welcome` event are
appended to the inbound buffer; the buffer is flushed to the agent (as
one concatenated send, exactly as `src/server.js` lines 164-168 do)
and cleared the instant readiness is reached; chunks arriving after
readiness are forwarded immediately.  Consequently the concatenation
of all bytes sent to the agent equals the concatenation of the
pre-ready chunks followed by the post-ready chunks — the full input in
order, with nothing reordered, duplicated or lost; and, over an
arbitrary event trace, the bytes sent to the agent plus the bytes
still buffered always equal the bytes received from the transport. -/
theorem c1_inbound_audio_order (env : String → Option String)
    (pre post : List (List Nat)) :
    ((runServer env (pre.map Ev.media ++ Ev.welcome :: post.map Ev.media)).sentToAgent
        = (if pre.flatten.isEmpty then [] else [pre.flatten]) ++ post)
    ∧ ((runServer env (pre.map Ev.media ++ Ev.welcome :: post.map Ev.media)).sentToAgent.flatten
        = (pre ++ post).flatten)
    ∧ ((runServer env (pre.map Ev.media ++ Ev.welcome :: post.map Ev.media)).audioBuffer = [])
    ∧ (∀ tr : List Ev,
        (runServer env tr).sentToAgent.flatten ++ (runServer env tr).audioBuffer
          = (mediaPayloads tr).flatten) := by
  have hrun : runServer env (pre.map Ev.media ++ Ev.welcome :: post.map Ev.media)
      = (post.map Ev.media).foldl (stepServer env)
          (stepServer env ((pre.map Ev.media).foldl (stepServer env) initServerState)
            .welcome) := by
    unfold runServer
    rw [List.foldl_append, List.foldl_cons]
  have if_isEmpty_flatten : ∀ (b : List Nat) (qs : List (List Nat)),
      ((if b.isEmpty then ([] : List (List Nat)) else [b]) ++ qs).flatten
        = b ++ qs.flatten := by
    intro b qs
    cases b <;> simp
  rw [hrun, foldl_media_notReady env pre initServerState rfl, step_welcome_eq,
      foldl_media_ready env post _ rfl]
  refine ⟨by simp [initServerState], ?_, by simp [initServerState], ?_⟩
  · simp only [initServerState, List.nil_append, if_isEmpty_flatten, List.flatten_append]
  · intro tr
    have h := foldl_stepServer_bytes env tr initServerState (fun h => rfl)
    simpa [runServer, initServerState] using h.2

/-- C2 counterexample: an outbound audio chunk produced by the agent
before the telephony transport is attached is silently discarded, not
queued: `src/server.js` lines 174-182 send the chunk only when
`streamSid` is set and have no else branch, and no pending-outbound
queue exists anywhere in the file.  After the transport attaches
(`start` with stream SID `"S"`), nothing is flushed: the only frame
ever sent is the chunk that arrived after attachment. -/
theorem c2_outbound_drop_counterexample :
    ((runServer (fun _ => none) [Ev.agentAudio [1, 2, 3], Ev.start "S" "C"]).sentToTwilio
        = [])
    ∧ ((runServer (fun _ => none)
          [Ev.agentAudio [1, 2, 3], Ev.start "S" "C", Ev.agentAudio [4]]).sentToTwilio
        = [TwilioFrame.mk "media" "S" [4]]) := by
  constructor <;> rfl

/-- C2 amended: `src/server.js` keeps no pending-outbound queue.  Every
outbound audio chunk produced by the agent connection before the
telephony transport is attached (before `streamSid` is known) is
silently discarded; every chunk produced after attachment is forwarded
immediately, in order, as a media frame addressed with the stream
SID. -/
theorem c2_outbound_audio_amended (env : String → Option String) (sid csid : String)
    (pre post : List (List Nat)) :
    (runServer env
        (pre.map Ev.agentAudio ++ Ev.start sid csid :: post.map Ev.agentAudio)).sentToTwilio
      = post.map (fun c => TwilioFrame.mk "media" sid c) := by
  have hrun : runServer env (pre.map Ev.agentAudio ++ Ev.start sid csid :: post.map Ev.agentAudio)
      = (post.map Ev.agentAudio).foldl (stepServer env)
          (stepServer env ((pre.map Ev.agentAudio).foldl (stepServer env) initServerState)
            (.start sid csid)) := by
    unfold runServer
    rw [List.foldl_append, List.foldl_cons]
  rw [hrun, foldl_agentAudio_noSid env pre initServerState rfl, step_start_eq,
      foldl_agentAudio_sid env sid post _ rfl]
  simp [initServerState]

lemma stepServer_controls (env : String → Option String) (s : ServerState) (e : Ev) :
    (stepServer env s e).sentAgentControls = s.sentAgentControls := by
  cases e with
  | welcome => rfl
  | media p =>
      by_cases h : s.isAgentReady = true
      · rw [step_media_ready env s p h]
      · rw [step_media_notReady env s p (by simpa using h)]
  | start sid csid => rfl
  | agentAudio c =>
      cases hsid : s.streamSid with
      | some sid => rw [step_agentAudio_some env s c sid hsid]
      | none => rw [step_agentAudio_none env s c hsid]
  | convText r c => exact (step_convText_preserves env s r c).2.2.2.2.1
  | interim => rfl
  | twilioClose => exact (step_twilioClose_preserves env s).2.2.2.2.1

lemma stepServer_frames (env : String → Option String) (s : ServerState) (e : Ev) :
    (stepServer env s e).sentToTwilio = s.sentToTwilio
    ∨ ∃ sid c, (stepServer env s e).sentToTwilio
        = s.sentToTwilio ++ [TwilioFrame.mk "media" sid c] := by
  cases e with
  | welcome => exact Or.inl rfl
  | media p =>
      by_cases h : s.isAgentReady = true
      · rw [step_media_ready env s p h]; exact Or.inl rfl
      · rw [step_media_notReady env s p (by simpa using h)]; exact Or.inl rfl
  | start sid csid => exact Or.inl rfl
  | agentAudio c =>
      cases hsid : s.streamSid with
      | some sid =>
          rw [step_agentAudio_some env s c sid hsid]
          exact Or.inr ⟨sid, c, rfl⟩
      | none =>
          rw [step_agentAudio_none env s c hsid]
          exact Or.inl rfl
  | convText r c => exact Or.inl (step_convText_preserves env s r c).2.2.2.1
  | interim => exact Or.inl rfl
  | twilioClose => exact Or.inl (step_twilioClose_preserves env s).2.2.2.1

lemma foldl_controls (env : String → Option String) :
    ∀ (tr : List Ev) (s : ServerState),
      (tr.foldl (stepServer env) s).sentAgentControls = s.sentAgentControls := by
  intro tr
  induction tr with
  | nil => intro s; rfl
  | cons e rest ih =>
      intro s
      simp only [List.foldl_cons]
      rw [ih (stepServer env s e), stepServer_controls]

lemma foldl_frames_media (env : String → Option String) :
    ∀ (tr : List Ev) (s : ServerState),
      (s.sentToTwilio.all (fun f => f.event == "media")) = true →
      ((tr.foldl (stepServer env) s).sentToTwilio.all (fun f => f.event == "media")) = true := by
  intro tr
  induction tr with
  | nil => intro s h; exact h
  | cons e rest ih =>
      intro s h
      simp only [List.foldl_cons]
      refine ih (stepServer env s e) ?_
      rcases stepServer_frames env s e with heq | ⟨sid, c, heq⟩
      · rw [heq]; exact h
      · rw [heq, List.all_append]
        simp [h]

/-- C4 counterexample: `src/server.js` implements no barge-in.  With
the transport attached and the agent mid-utterance (one audio frame
already forwarded), an interim (non-final) recognition event is
followed by a further outbound audio frame with no clear-playback
frame before it (every frame sent is a media frame), no flush/clear
control is ever sent to the agent connection, and the claimed
`isSpeaking` flag does not exist in the source at all. -/
theorem c4_barge_in_counterexample :
    ((runServer (fun _ => none)
        [Ev.start "S" "C", Ev.agentAudio [1], Ev.interim, Ev.agentAudio [2]]).sentToTwilio
      = [TwilioFrame.mk "media" "S" [1], TwilioFrame.mk "media" "S" [2]])
    ∧ ((runServer (fun _ => none)
        [Ev.start "S" "C", Ev.agentAudio [1], Ev.interim, Ev.agentAudio [2]]).sentAgentControls
      = []) := by
  constructor <;> rfl

/-- C4 amended: the code implements no barge-in whatsoever.  An interim
(non-final) recognition event has no registered handler and leaves the
session state (hence all observable outputs) completely unchanged;
every frame the session ever sends to the telephony transport is a
media frame (never a clear-playback frame); and no flush/clear control
is ever sent to the agent connection.  Queued outbound audio is not
discarded on interim results — it does not exist, since pre-attach
agent audio is dropped on arrival. -/
theorem c4_no_barge_in_amended :
    (∀ (env : String → Option String) (s : ServerState), stepServer env s .interim = s)
    ∧ (∀ (env : String → Option String) (tr : List Ev),
        ((runServer env tr).sentToTwilio.all (fun f => f.event == "media")) = true
        ∧ (runServer env tr).sentAgentControls = []) := by
  refine ⟨fun env s => rfl, fun env tr => ⟨?_, ?_⟩⟩
  · exact foldl_frames_media env tr initServerState rfl
  · exact foldl_controls env tr initServerState

lemma step_convText_history (env : String → Option String) (s : ServerState)
    (r c : String) :
    (stepServer env s (.convText r c)).conversationHistory
      = s.conversationHistory ++ [⟨r, c⟩] := by
  simp only [stepServer]
  split
  · split
    · rfl
    · rfl
  · rfl

lemma step_convText_closeRequested (env : String → Option String) (s : ServerState)
    (r c : String) :
    (stepServer env s (.convText r c)).closeRequested
      = (s.closeRequested || (r == "assistant" && c == "BYE" && s.wsOpen)) := by
  cases hr : (r == "assistant") <;>
    cases hc : (c == "BYE") <;>
      cases hw : s.wsOpen <;>
        simp [stepServer, hr, hc, hw]

/-- C5 counterexample: end-of-conversation detection in `src/server.js`
line 198 is an exact string comparison `data.content == "BYE"`, not an
exact-or-prefix match.  The assistant utterance `"BYE bye"` begins with
the closing sentinel `"BYE"` (witnessed by the decomposition below),
yet does not trigger the close; the bare sentinel `"BYE"` does. -/
theorem c5_sentinel_counterexample :
    (∃ t, "BYE bye" = "BYE" ++ t)
    ∧ ((runServer (fun _ => none) [Ev.convText "assistant" "BYE bye"]).closeRequested = false)
    ∧ ((runServer (fun _ => none) [Ev.convText "assistant" "BYE"]).closeRequested = true) := by
  exact ⟨⟨" bye", rfl⟩, rfl, rfl⟩

/-- C5 amended: teardown (the `wsTwilio.close()` request that leads to
the close handler) is triggered by an utterance event exactly when the
role is `"assistant"`, the content is *exactly* the sentinel `"BYE"`
(prefix matches do not trigger), and the socket is still open; any
other utterance leaves the close request unchanged. -/
theorem c5_sentinel_amended (env : String → Option String) (s : ServerState)
    (r c : String) :
    (stepServer env s (.convText r c)).closeRequested
      = (s.closeRequested || (r == "assistant" && c == "BYE" && s.wsOpen)) :=
  step_convText_closeRequested env s r c

/-- C6 counterexample: the transcript is mutated after end-of-conversation
detection.  The first event (assistant `"BYE"`) triggers detection (the
close request), yet a later-arriving recognition result is still
appended to `conversationHistory` by the handler in `src/server.js`
lines 188-205, which pushes unconditionally before checking the
sentinel; so the snapshot read at transport close differs from the
transcript at the moment of detection. -/
theorem c6_transcript_counterexample :
    ((runServer (fun _ => none) [Ev.convText "assistant" "BYE"]).closeRequested = true)
    ∧ ((runServer (fun _ => none) [Ev.convText "assistant" "BYE"]).conversationHistory
        = [Turn.mk "assistant" "BYE"])
    ∧ ((runServer (fun _ => none)
          [Ev.convText "assistant" "BYE", Ev.convText "user" "one more thing"]).conversationHistory
        = [Turn.mk "assistant" "BYE", Turn.mk "user" "one more thing"]) := by
  exact ⟨rfl, rfl, rfl⟩

/-- C6 amended: the transcript is never frozen.  Every utterance event
appends its turn to `conversationHistory`, unconditionally — including
events arriving after the end-of-conversation sentinel has been
detected — and the snapshot passed to summarization is the history as
it stands when the transport close handler runs, not at detection
time. -/
theorem c6_transcript_amended (env : String → Option String) (s : ServerState)
    (r c : String) :
    (stepServer env s (.convText r c)).conversationHistory
      = s.conversationHistory ++ [⟨r, c⟩] :=
  step_convText_history env s r c

lemma step_twilioClose_summarize (env : String → Option String) (s : ServerState) :
    (stepServer env s .twilioClose).summarizeCalls
      = s.summarizeCalls
          ++ (if !s.conversationHistory.isEmpty && s.tradieData.isSome then
                [s.conversationHistory]
              else []) := by
  by_cases h : (!s.conversationHistory.isEmpty && s.tradieData.isSome) = true
  · simp [stepServer, h]
  · simp only [Bool.not_eq_true] at h
    simp [stepServer, h]

lemma foldl_convTexts (env : String → Option String) :
    ∀ (turns : List Turn) (s : ServerState),
      ((turns.map (fun t => Ev.convText t.role t.content)).foldl (stepServer env) s).conversationHistory
          = s.conversationHistory ++ turns
      ∧ ((turns.map (fun t => Ev.convText t.role t.content)).foldl (stepServer env) s).summarizeCalls
          = s.summarizeCalls
      ∧ ((turns.map (fun t => Ev.convText t.role t.content)).foldl (stepServer env) s).tradieData
          = s.tradieData := by
  intro turns
  induction turns with
  | nil => intro s; exact ⟨by simp, rfl, rfl⟩
  | cons t rest ih =>
      intro s
      simp only [List.map_cons, List.foldl_cons]
      obtain ⟨ih1, ih2, ih3⟩ := ih (stepServer env s (.convText t.role t.content))
      obtain ⟨-, -, -, -, -, hsum, htrad, -⟩ := step_convText_preserves env s t.role t.content
      refine ⟨?_, by rw [ih2, hsum], by rw [ih3, htrad]⟩
      rw [ih1, step_convText_history]
      simp

/-- C7 counterexample: summarization at teardown is *not* invoked for
every non-empty transcript.  In `src/server.js` line 241 the close
handler requires `conversationHistory.length > 0 && tradieData`: when
the tradie lookup found nothing for the call SID (the registry has no
entry, the logged `⚠️ No tradie data found` path), the transport close
runs no summarization even though the transcript holds a turn. -/
theorem c7_summarize_counterexample :
    ((runServer (fun _ => none)
        [Ev.start "S" "C", Ev.convText "user" "hi", Ev.twilioClose]).conversationHistory
      = [Turn.mk "user" "hi"])
    ∧ ((runServer (fun _ => none)
        [Ev.start "S" "C", Ev.convText "user" "hi", Ev.twilioClose]).summarizeCalls
      = []) := by
  exact ⟨rfl, rfl⟩

/-- C7 amended: at transport close, summarization is invoked — with the
transcript as it stands at close time — exactly when the transcript is
non-empty AND tradie data was found for the call; it is skipped when
either the transcript is empty or no tradie data is present.  Stated
over a full call trace (stream start carrying call SID `csid`, then the
utterance turns, then transport close) against the registry `env`. -/
theorem c7_summarize_iff_amended (env : String → Option String) (sid csid : String)
    (turns : List Turn) :
    (runServer env
        (Ev.start sid csid :: turns.map (fun t => Ev.convText t.role t.content)
          ++ [Ev.twilioClose])).summarizeCalls
      = (if !turns.isEmpty && (env csid).isSome then [turns] else []) := by
  have hrun : runServer env
      (Ev.start sid csid :: turns.map (fun t => Ev.convText t.role t.content)
        ++ [Ev.twilioClose])
      = stepServer env
          ((turns.map (fun t => Ev.convText t.role t.content)).foldl (stepServer env)
            (stepServer env initServerState (.start sid csid)))
          .twilioClose := by
    unfold runServer
    rw [List.cons_append, List.foldl_cons, List.foldl_append, List.foldl_cons,
        List.foldl_nil]
  obtain ⟨h1, h2, h3⟩ :=
    foldl_convTexts env turns (stepServer env initServerState (.start sid csid))
  rw [hrun, step_twilioClose_summarize, h1, h2, h3, step_start_eq]
  cases henv : env csid <;> simp [initServerState, henv]

/-!
The `src/unnamed/part_001` variant keeps per-call state in a
`connectionData` object and tears it down with `cleanupConnection`
(part_001 lines 219-245), which is invoked both from the
`ConversationText` handler on the `"BYE"` sentinel (lines 198-201) and
from the Twilio WebSocket close handler (lines 397-404).  The fields
of `connectionData` relevant to teardown become `ConnData`;
`processRuns` counts the invocations of `processConversationData`
(each of which fires one summarization request, lines 248-334). -/

/-- Per-call `connectionData` of `src/unnamed/part_001`, restricted to
the fields teardown reads and writes, plus the count of
`processConversationData` runs. -/
structure ConnData where
  history : List Turn
  keepAliveOn : Bool
  connected : Bool
  inRegistry : Bool
  processRuns : Nat
deriving DecidableEq, Repr

/-- `cleanupConnection` from `src/unnamed/part_001` lines 219-245:
clear the keep-alive interval, disconnect the agent connection
(swallowing errors), run `processConversationData` when the
conversation history is non-empty, and delete the call's entries from
the registry maps.  There is no `closed` flag: nothing records that
cleanup already ran, and `connectionData.conversationHistory` is not
cleared, so a second invocation re-runs the whole sequence. -/
def cleanupConnection (cd : ConnData) : ConnData :=
  { cd with keepAliveOn := false
            connected := false
            inRegistry := false
            processRuns := cd.processRuns + (if cd.history.isEmpty then 0 else 1) }

/-- The `ConversationText` handler of `src/unnamed/part_001` lines
188-202: push the turn, then on an assistant `"BYE"` run
`cleanupConnection`. -/
def onConversationTextP1 (cd : ConnData) (r c : String) : ConnData :=
  let cd1 := { cd with history := cd.history ++ [⟨r, c⟩] }
  if r == "assistant" && c == "BYE" then cleanupConnection cd1 else cd1

/-- The Twilio WebSocket close handler of `src/unnamed/part_001` lines
397-404: when the call has connection data, run `cleanupConnection`
again on the same object. -/
def onTwilioCloseP1 (cd : ConnData) : ConnData :=
  cleanupConnection cd

/-- C3 counterexample: teardown does not run exactly once.  In the
`src/unnamed/part_001` variant a call whose agent says `"BYE"` runs
`cleanupConnection` from the `ConversationText` handler, and the
subsequent Twilio socket close runs `cleanupConnection` again on the
same `connectionData`; since no `closed` flag exists and the history
is still non-empty, `processConversationData` — and with it the
summarization/task-submission pipeline — runs twice for this single
call, contradicting "post-call processing is invoked at most once per
call". -/
theorem c3_teardown_counterexample :
    (onTwilioCloseP1
        (onConversationTextP1 (ConnData.mk [] true true true 0) "assistant" "BYE")).processRuns
      = 2 := by
  rfl

/-- C3 amended: there is no `closed` flag anywhere in the sources, and
teardown is not idempotent.  Each invocation of `cleanupConnection`
runs the full sequence: it stops keep-alive, disconnects the agent
connection, removes the call from the registry, and — whenever the
transcript is non-empty — runs post-call processing once more.  Hence
redundant triggers perform post-call processing once per trigger: two
consecutive triggers on a call with a non-empty transcript invoke it
exactly twice. -/
theorem c3_teardown_amended (cd : ConnData) (h : ¬cd.history.isEmpty = true) :
    (cleanupConnection cd).processRuns = cd.processRuns + 1
    ∧ (cleanupConnection cd).keepAliveOn = false
    ∧ (cleanupConnection cd).connected = false
    ∧ (cleanupConnection cd).inRegistry = false
    ∧ (cleanupConnection (cleanupConnection cd)).processRuns = cd.processRuns + 2 := by
  have hh : cd.history.isEmpty = false := by
    cases hcase : cd.history.isEmpty
    · rfl
    · exact absurd hcase h
  have h2 : (cleanupConnection cd).history = cd.history := rfl
  refine ⟨?_, rfl, rfl, rfl, ?_⟩
  · simp [cleanupConnection, hh]
  · simp [cleanupConnection, hh]

/-- C3 witness: the amended statement applied to a concrete
`connectionData` holding one transcript turn. -/
theorem c3_teardown_amended_witness :
    (cleanupConnection (cleanupConnection (ConnData.mk [Turn.mk "user" "hi"] true true true 0))).processRuns
      = (ConnData.mk [Turn.mk "user" "hi"] true true true 0).processRuns + 2 :=
  (c3_teardown_amended (ConnData.mk [Turn.mk "user" "hi"] true true true 0)
    (by decide)).2.2.2.2

/-!
Authentication utilities (`src/server.js` lines 26-70).  The HMAC-SHA256
of `crypto.createHmac` is an external primitive; it enters the model as
an abstract function `hmac : secret → message → hex digest`, since every
property claimed is relational in it.  `Date.now().toString()` produces
the decimal representation of the timestamp, modelled by `natToDecStr`;
JavaScript's `parseInt` reads the leading decimal-digit run, modelled by
`jsParseInt` (sign/whitespace handling is irrelevant here: generated
timestamps are plain digit strings). -/

/-- Decimal digit characters of `n`, most significant first, computed
with structural fuel (`fuel > n` always suffices). -/
def decDigitsAux : Nat → Nat → List Char
  | 0, _ => []
  | fuel + 1, n =>
      if n < 10 then [Char.ofNat (48 + n)]
      else decDigitsAux fuel (n / 10) ++ [Char.ofNat (48 + n % 10)]

/-- Decimal digit characters of `n`, most significant first. -/
def decDigits (n : Nat) : List Char := decDigitsAux (n + 1) n

/-- The decimal string of `n`, as produced by `Number.toString()`. -/
def natToDecStr (n : Nat) : String := String.mk (decDigits n)

/-- JavaScript `parseInt` on the strings relevant here: read the
leading run of decimal digits; no digits means `NaN` (`none`). -/
def jsParseInt (s : String) : Option Nat :=
  let ds := s.data.takeWhile Char.isDigit
  if ds.isEmpty then none
  else some (ds.foldl (fun a c => a * 10 + (c.toNat - 48)) 0)

lemma decDigit_toNat (k : Nat) (h : k < 10) : (Char.ofNat (48 + k)).toNat = 48 + k := by
  interval_cases k <;> decide

lemma decDigit_isDigit (k : Nat) (h : k < 10) : (Char.ofNat (48 + k)).isDigit = true := by
  interval_cases k <;> decide

lemma decDigitsAux_spec : ∀ (fuel n : Nat), n < fuel →
    (decDigitsAux fuel n).all Char.isDigit = true
    ∧ decDigitsAux fuel n ≠ []
    ∧ ∀ a : Nat,
        (decDigitsAux fuel n).foldl (fun a c => a * 10 + (c.toNat - 48)) a
          = a * 10 ^ (decDigitsAux fuel n).length + n := by
  intro fuel
  induction fuel with
  | zero => intro n h; exact absurd h (Nat.not_lt_zero n)
  | succ fuel ih =>
      intro n h
      by_cases h10 : n < 10
      · simp only [decDigitsAux, if_pos h10]
        refine ⟨by simp [decDigit_isDigit n h10], by simp, ?_⟩
        intro a
        simp only [List.foldl_cons, List.foldl_nil, List.length_cons, List.length_nil,
          decDigit_toNat n h10, pow_one, Nat.zero_add, pow_succ, pow_zero, Nat.one_mul]
        omega
      · have hdiv : n / 10 < fuel := by omega
        obtain ⟨ihAll, ihNe, ihFold⟩ := ih (n / 10) hdiv
        have hmod : n % 10 < 10 := Nat.mod_lt n (by omega)
        simp only [decDigitsAux, if_neg h10]
        refine ⟨?_, by simp, ?_⟩
        · rw [List.all_append]
          simp [ihAll, decDigit_isDigit (n % 10) hmod]
        · intro a
          rw [List.foldl_append, ihFold a]
          simp only [List.foldl_cons, List.foldl_nil, List.length_append,
            List.length_cons, List.length_nil, decDigit_toNat (n % 10) hmod]
          have hdm : n / 10 * 10 + (48 + n % 10 - 48) = n := by omega
          calc (a * 10 ^ (decDigitsAux fuel (n / 10)).length + n / 10) * 10
                  + (48 + n % 10 - 48)
              = a * (10 ^ (decDigitsAux fuel (n / 10)).length * 10)
                  + (n / 10 * 10 + (48 + n % 10 - 48)) := by ring
            _ = a * 10 ^ ((decDigitsAux fuel (n / 10)).length + (0 + 1)) + n := by
                  rw [hdm, ← pow_succ]

lemma isEmpty_false_of_ne_nil {α : Type} (l : List α) (h : l ≠ []) :
    l.isEmpty = false := by
  cases l with
  | nil => exact absurd rfl h
  | cons a t => rfl

lemma decDigits_ne_nil (n : Nat) : decDigits n ≠ [] :=
  (decDigitsAux_spec (n + 1) n (Nat.lt_succ_self n)).2.1

/-- Printing a number in decimal and parsing it back with `parseInt`
recovers the number. -/
lemma jsParseInt_natToDecStr (n : Nat) : jsParseInt (natToDecStr n) = some n := by
  obtain ⟨hAll, hNe, hFold⟩ := decDigitsAux_spec (n + 1) n (Nat.lt_succ_self n)
  have htake : (decDigits n).takeWhile Char.isDigit = decDigits n := by
    have : ∀ (l : List Char), l.all Char.isDigit = true → l.takeWhile Char.isDigit = l := by
      intro l
      induction l with
      | nil => intro _; rfl
      | cons c t iht =>
          intro hl
          rw [List.all_cons, Bool.and_eq_true] at hl
          simp [List.takeWhile_cons, hl.1, iht hl.2]
    exact this (decDigits n) hAll
  simp only [jsParseInt, natToDecStr, decDigits] at *
  rw [htake, isEmpty_false_of_ne_nil _ hNe]
  simp only [Bool.false_eq_true, if_false, hFold 0, Nat.zero_mul, Nat.zero_add]

/-- The three authentication headers (`x-api-key`, `x-timestamp`,
`x-signature`); `none` models an absent header. -/
structure AuthHeaders where
  apiKey : Option String
  timestamp : Option String
  signature : Option String
deriving DecidableEq, Repr

/-- Result shape of `validateApiKeyAuth` (`{ valid, error }`). -/
structure ValidationResult where
  valid : Bool
  error : Option String
deriving DecidableEq, Repr

/-- `generateAuthHeaders` from `src/server.js` lines 26-40: the
timestamp is `Date.now().toString()` (decimal of `now`), the API key is
a random hex string (taken as the parameter `apiKey`), and the
signature is the HMAC, under the shared secret, of
`` `${apiKey}:${timestamp}` ``. -/
def generateAuthHeaders (hmac : String → String → String) (secret : String)
    (now : Nat) (apiKey : String) : AuthHeaders :=
  let timestamp := natToDecStr now
  { apiKey := some apiKey
    timestamp := some timestamp
    signature := some (hmac secret (apiKey ++ ":" ++ timestamp)) }

/-- The replay-window test of `src/server.js` lines 52-57:
`Math.abs(now - parseInt(timestamp)) > 5 * 60 * 1000`.  When `parseInt`
yields `NaN`, the JavaScript comparison is false, so the window check
does not reject. -/
def windowExceeded (now : Nat) (timestamp : String) : Bool :=
  match jsParseInt timestamp with
  | some t => decide (5 * 60 * 1000 < ((now : Int) - (t : Int)).natAbs)
  | none => false

/-- `validateApiKeyAuth` from `src/server.js` lines 43-70: reject when
any of the three headers is absent or empty (JS falsiness), then when
the timestamp is outside the five-minute window, then when the
signature differs from the expected HMAC of `` `${apiKey}:${timestamp}` ``;
otherwise accept. -/
def validateApiKeyAuth (hmac : String → String → String) (secret : String)
    (now : Nat) (h : AuthHeaders) : ValidationResult :=
  match h.apiKey, h.timestamp, h.signature with
  | some apiKey, some timestamp, some signature =>
      if apiKey.data.isEmpty || timestamp.data.isEmpty || signature.data.isEmpty then
        { valid := false, error := some "Missing required authentication headers" }
      else if windowExceeded now timestamp then
        { valid := false, error := some "Timestamp expired or too far in future" }
      else if signature = hmac secret (apiKey ++ ":" ++ timestamp) then
        { valid := true, error := none }
      else
        { valid := false, error := some "Invalid signature" }
  | _, _, _ => { valid := false, error := some "Missing required authentication headers" }

/-- C9: auth-header round-trip.  (1) For every shared secret, abstract
HMAC, non-empty API key and non-empty digest, the header set produced
by `generateAuthHeaders` is accepted by `validateApiKeyAuth` under the
same secret whenever the validation time is within the five-minute
window of the generation time.  (2) A request missing any of the three
headers is rejected.  (3) A request whose signature differs from the
HMAC of `` `${apiKey}:${timestamp}` `` under the secret is rejected. -/
theorem c9_auth_header_roundtrip (hmac : String → String → String) (secret : String) :
    (∀ (apiKey : String) (now1 now2 : Nat),
        apiKey.data ≠ [] →
        (hmac secret (apiKey ++ ":" ++ natToDecStr now1)).data ≠ [] →
        ((now2 : Int) - (now1 : Int)).natAbs ≤ 5 * 60 * 1000 →
        (validateApiKeyAuth hmac secret now2
            (generateAuthHeaders hmac secret now1 apiKey)).valid = true)
    ∧ (∀ (h : AuthHeaders) (now : Nat),
        h.apiKey = none ∨ h.timestamp = none ∨ h.signature = none →
        (validateApiKeyAuth hmac secret now h).valid = false)
    ∧ (∀ (key ts sig : String) (now : Nat),
        sig ≠ hmac secret (key ++ ":" ++ ts) →
        (validateApiKeyAuth hmac secret now
            (AuthHeaders.mk (some key) (some ts) (some sig))).valid = false) := by
  refine ⟨?_, ?_, ?_⟩
  · intro apiKey now1 now2 hkey hsig hwin
    have h1 : (apiKey.data.isEmpty || (natToDecStr now1).data.isEmpty
        || (hmac secret (apiKey ++ ":" ++ natToDecStr now1)).data.isEmpty) = false := by
      rw [isEmpty_false_of_ne_nil _ hkey,
          isEmpty_false_of_ne_nil _ (show (natToDecStr now1).data ≠ [] from decDigits_ne_nil now1),
          isEmpty_false_of_ne_nil _ hsig]
      rfl
    have h2 : windowExceeded now2 (natToDecStr now1) = false := by
      simp only [windowExceeded, jsParseInt_natToDecStr]
      exact decide_eq_false (Nat.not_lt.mpr hwin)
    simp only [generateAuthHeaders, validateApiKeyAuth, h1, h2, Bool.false_eq_true,
      if_false, if_pos rfl]
    simp
  · intro h now hmiss
    obtain ⟨ka, ts, sg⟩ := h
    rcases hmiss with hk | ht | hs
    · simp only at hk
      subst hk
      cases ts <;> cases sg <;> rfl
    · simp only at ht
      subst ht
      cases ka <;> cases sg <;> rfl
    · simp only at hs
      subst hs
      cases ka <;> cases ts <;> rfl
  · intro key ts sig now hne
    simp only [validateApiKeyAuth]
    by_cases h1 : (key.data.isEmpty || ts.data.isEmpty || sig.data.isEmpty) = true
    · simp [h1]
    · simp only [Bool.not_eq_true] at h1
      by_cases h2 : windowExceeded now ts = true
      · simp [h1, h2]
      · simp only [Bool.not_eq_true] at h2
        simp [h1, h2, hne]

/-- C9 witness: the round-trip accepted and a missing-header request
rejected, at a concrete HMAC, secret, key and time. -/
theorem c9_auth_header_roundtrip_witness :
    ((validateApiKeyAuth (fun secret msg => secret ++ msg) "k" 5
        (generateAuthHeaders (fun secret msg => secret ++ msg) "k" 5 "a")).valid = true)
    ∧ ((validateApiKeyAuth (fun secret msg => secret ++ msg) "k" 5
        (AuthHeaders.mk none (some "5") (some "x"))).valid = false) :=
  ⟨(c9_auth_header_roundtrip (fun secret msg => secret ++ msg) "k").1 "a" 5 5
      (by decide) (by decide) (by decide),
   (c9_auth_header_roundtrip (fun secret msg => secret ++ msg) "k").2.1
      (AuthHeaders.mk none (some "5") (some "x")) 5 (Or.inl rfl)⟩

/-!
`src/util/getCountryInfoFromPhone.js`.  The two library collaborators
are abstract: `parsePhoneNumber` from `libphonenumber-js` may throw
(modelled as `Except`), may in principle return nothing, or returns a
parsed number whose `.country` may be undefined;
`getTimezonesWithCountryCode` from `country-timezone` returns a
possibly-undefined array of timezone strings. -/

/-- The parsed phone number, restricted to the one property the
function reads (`.country`). -/
structure ParsedPhone where
  country : Option String
deriving DecidableEq, Repr

/-- The `{ countryCode, timezone }` result object. -/
structure CountryInfo where
  countryCode : String
  timezone : Option String
deriving DecidableEq, Repr

/-- `timezones?.[0] || null` from the source: `undefined` array, empty
array, and falsy (empty-string) first element all become `null`. -/
def firstTimezone (tzs : Option (List String)) : Option String :=
  match tzs with
  | none => none
  | some l =>
      match l.head? with
      | none => none
      | some t => if t.data.isEmpty then none else some t

/-- `getCountryInfoFromPhone` from `src/util/getCountryInfoFromPhone.js`
lines 10-26: inside a try/catch, parse the raw string; return `null`
when the parse throws, yields nothing, or yields a number with no
country; otherwise return `{ countryCode, timezone }` with the first
listed timezone (or `null`).  The catch clause makes the function total
over throwing collaborators. -/
def getCountryInfoFromPhone
    (parsePhoneNumber : String → Except String (Option ParsedPhone))
    (getTimezonesWithCountryCode : String → Option (List String))
    (phoneNumberRaw : String) : Option CountryInfo :=
  match parsePhoneNumber phoneNumberRaw with
  | .error _ => none
  | .ok none => none
  | .ok (some phoneNumber) =>
      match phoneNumber.country with
      | none => none
      | some countryCode =>
          some { countryCode := countryCode
                 timezone := firstTimezone (getTimezonesWithCountryCode countryCode) }

/-- C10: `getCountryInfoFromPhone` is total over arbitrary inputs and
arbitrary (even throwing) collaborator behaviour — the result is always
an `Option`, never a propagated exception: `null` exactly when the
parse throws, yields nothing, or yields no determinable country; and
otherwise the object `{ countryCode, timezone }` where `countryCode` is
the parsed country and `timezone` is the first timezone listed for that
country, or `null` when none exists. -/
theorem c10_getCountryInfo_total
    (parsePhoneNumber : String → Except String (Option ParsedPhone))
    (getTimezonesWithCountryCode : String → Option (List String))
    (phoneNumberRaw : String) :
    (∀ e, parsePhoneNumber phoneNumberRaw = .error e →
        getCountryInfoFromPhone parsePhoneNumber getTimezonesWithCountryCode phoneNumberRaw
          = none)
    ∧ (parsePhoneNumber phoneNumberRaw = .ok none →
        getCountryInfoFromPhone parsePhoneNumber getTimezonesWithCountryCode phoneNumberRaw
          = none)
    ∧ (∀ p, parsePhoneNumber phoneNumberRaw = .ok (some p) → p.country = none →
        getCountryInfoFromPhone parsePhoneNumber getTimezonesWithCountryCode phoneNumberRaw
          = none)
    ∧ (∀ p cc, parsePhoneNumber phoneNumberRaw = .ok (some p) → p.country = some cc →
        getCountryInfoFromPhone parsePhoneNumber getTimezonesWithCountryCode phoneNumberRaw
          = some { countryCode := cc
                   timezone := firstTimezone (getTimezonesWithCountryCode cc) }) := by
  refine ⟨?_, ?_, ?_, ?_⟩
  · intro e he
    simp [getCountryInfoFromPhone, he]
  · intro hn
    simp [getCountryInfoFromPhone, hn]
  · intro p hp hc
    simp [getCountryInfoFromPhone, hp, hc]
  · intro p cc hp hc
    simp [getCountryInfoFromPhone, hp, hc]

/-- C10 witness: the characterization applied to concrete collaborators
— a parser that recognizes one number with country `"AU"` and throws on
everything else, and a timezone table for `"AU"`. -/
theorem c10_getCountryInfo_total_witness :
    getCountryInfoFromPhone
        (fun s => if s = "+61399999999" then
            Except.ok (some (ParsedPhone.mk (some "AU")))
          else Except.error "ParseError")
        (fun cc => if cc = "AU" then some ["Australia/Sydney"] else none)
        "+61399999999"
      = some (CountryInfo.mk "AU" (some "Australia/Sydney")) := by
  have h := (c10_getCountryInfo_total
      (fun s => if s = "+61399999999" then
          Except.ok (some (ParsedPhone.mk (some "AU")))
        else Except.error "ParseError")
      (fun cc => if cc = "AU" then some ["Australia/Sydney"] else none)
      "+61399999999").2.2.2 (ParsedPhone.mk (some "AU")) "AU" (by simp) rfl
  rw [h]
  rfl

/-!
Task-JSON extraction (`src/server.js` lines 297-303, identical in
`src/unnamed/part_001` lines 305-311):

    const jsonMatch = aiResponse.match(/\x7b[\s\S]*\x7d/);
    if (!jsonMatch) throw new Error('No JSON found in AI response');
    const taskData = JSON.parse(jsonMatch[0]);

The regex is greedy: the match runs from the *first* opening brace that
has a closing brace after it to the *last* closing brace of the whole
response.  Strings are modelled as `List Char`; `JSON.parse` is
modelled by an executable recursive-descent validity checker over the
JSON grammar (objects, arrays, strings with escapes, numbers with
fraction/exponent, `true`/`false`/`null`), total via structural fuel.
Both thrown-error paths (`no match` and `JSON.parse` failure) are the
`none` result. -/

/-- The opening-brace character. -/
def lbrace : Char := '\x7b'

/-- The closing-brace character. -/
def rbrace : Char := '\x7d'

/-- JSON insignificant whitespace. -/
def jsonSkipWs (s : List Char) : List Char :=
  s.dropWhile (fun c => c == ' ' || c == '\n' || c == '\t' || c == '\r')

/-- Consume the remainder of a JSON string literal (the opening quote
already consumed); a backslash escapes the following character. -/
def jsonStringRest : List Char → Option (List Char)
  | [] => none
  | '\\' :: _ :: r => jsonStringRest r
  | '"' :: r => some r
  | _ :: r => jsonStringRest r

/-- Consume a JSON exponent part (after `e`/`E`). -/
def jsonExpPart (s : List Char) : Option (List Char) :=
  let s1 := match s with
            | '+' :: r => r
            | '-' :: r => r
            | _ => s
  let ds := s1.takeWhile Char.isDigit
  if ds.isEmpty then none else some (s1.dropWhile Char.isDigit)

/-- Consume a JSON number. -/
def jsonNumber (s : List Char) : Option (List Char) :=
  let s1 := match s with
            | '-' :: r => r
            | _ => s
  let ds := s1.takeWhile Char.isDigit
  if ds.isEmpty then none
  else
    let r1 := s1.dropWhile Char.isDigit
    let r2 := match r1 with
              | '.' :: r =>
                  let fs := r.takeWhile Char.isDigit
                  if fs.isEmpty then none else some (r.dropWhile Char.isDigit)
              | _ => some r1
    match r2 with
    | none => none
    | some r3 =>
        match r3 with
        | 'e' :: r => jsonExpPart r
        | 'E' :: r => jsonExpPart r
        | _ => some r3

/-- Parser modes: a JSON value; an object body (after `\x7b`); the
members of an object; an array body (after `[`); the items of an
array. -/
inductive JMode where
  | value
  | objectBody
  | members
  | arrayBody
  | items
deriving DecidableEq, Repr

/-- The recursive-descent JSON consumer: returns the unconsumed
remainder on success.  Structural fuel keeps it total and
kernel-evaluable. -/
def jsonRun : Nat → JMode → List Char → Option (List Char)
  | 0, _, _ => none
  | fuel + 1, mode, s =>
      match mode with
      | .value =>
          match jsonSkipWs s with
          | [] => none
          | c :: r =>
              if c = lbrace then jsonRun fuel .objectBody r
              else if c = '[' then jsonRun fuel .arrayBody r
              else if c = '"' then jsonStringRest r
              else if c = 'n' then
                (match r with
                 | 'u' :: 'l' :: 'l' :: r2 => some r2
                 | _ => none)
              else if c = 't' then
                (match r with
                 | 'r' :: 'u' :: 'e' :: r2 => some r2
                 | _ => none)
              else if c = 'f' then
                (match r with
                 | 'a' :: 'l' :: 's' :: 'e' :: r2 => some r2
                 | _ => none)
              else jsonNumber (c :: r)
      | .objectBody =>
          match jsonSkipWs s with
          | [] => none
          | c :: r => if c = rbrace then some r else jsonRun fuel .members (c :: r)
      | .members =>
          match jsonSkipWs s with
          | [] => none
          | c :: r =>
              if c = '"' then
                match jsonStringRest r with
                | none => none
                | some r2 =>
                    match jsonSkipWs r2 with
                    | ':' :: r3 =>
                        match jsonRun fuel .value r3 with
                        | none => none
                        | some r4 =>
                            match jsonSkipWs r4 with
                            | [] => none
                            | c2 :: r5 =>
                                if c2 = rbrace then some r5
                                else if c2 = ',' then jsonRun fuel .members r5
                                else none
                    | _ => none
              else none
      | .arrayBody =>
          match jsonSkipWs s with
          | [] => none
          | c :: r => if c = ']' then some r else jsonRun fuel .items (c :: r)
      | .items =>
          match jsonRun fuel .value s with
          | none => none
          | some r =>
              match jsonSkipWs r with
              | [] => none
              | c :: r2 =>
                  if c = ']' then some r2
                  else if c = ',' then jsonRun fuel .items r2
                  else none

/-- `JSON.parse` succeeds on `s`: a single JSON value followed only by
whitespace. -/
def jsonIsValid (s : List Char) : Bool :=
  match jsonRun (2 * s.length + 2) .value s with
  | some r => (jsonSkipWs r).isEmpty
  | none => false

/-- `s` is (after leading whitespace) a single well-formed JSON
*object*. -/
def jsonIsValidObj (s : List Char) : Bool :=
  (match jsonSkipWs s with
   | c :: _ => c == lbrace
   | [] => false) && jsonIsValid s

/-- The greedy regex match `/\x7b[\s\S]*\x7d/` of the source: the span
from the first opening brace to the last closing brace of the whole
string, when such a span exists. -/
def jsonMatchSpan (s : List Char) : Option (List Char) :=
  let t := s.dropWhile (fun c => c != lbrace)
  if t.isEmpty then none
  else
    let u := (t.reverse.dropWhile (fun c => c != rbrace)).reverse
    if u.isEmpty then none else some u

/-- The extraction step of `src/server.js` lines 297-303: regex match,
then `JSON.parse` of the match; both failure modes (`No JSON found` and
a parse exception) are `none`. -/
def extractTaskJson (s : List Char) : Option (List Char) :=
  match jsonMatchSpan s with
  | none => none
  | some m => if jsonIsValid m then some m else none

/-- All contiguous substrings of `s`. -/
def substringsOf (s : List Char) : List (List Char) :=
  ((s.tails).map List.inits).flatten

lemma dropWhile_append_of_all {α : Type} (p : α → Bool) :
    ∀ (l1 l2 : List α), l1.all p = true →
      (l1 ++ l2).dropWhile p = l2.dropWhile p := by
  intro l1
  induction l1 with
  | nil => intro l2 _; rfl
  | cons a t ih =>
      intro l2 h
      rw [List.all_cons, Bool.and_eq_true] at h
      rw [List.cons_append]
      simp only [List.dropWhile, h.1]
      exact ih l2 h.2

lemma dropWhile_head_false {α : Type} (p : α → Bool) :
    ∀ (l : List α) (c : α) (t : List α), l.dropWhile p = c :: t → p c = false := by
  intro l
  induction l with
  | nil => intro c t h; simp [List.dropWhile] at h
  | cons a r ih =>
      intro c t h
      cases ha : p a with
      | true =>
          simp only [List.dropWhile, ha] at h
          exact ih c t h
      | false =>
          simp only [List.dropWhile, ha] at h
          injection h with h1 h2
          rw [← h1]
          exact ha

/-- The greedy span on a body made of brace-free leading prose, a
brace-delimited object, and closing-brace-free trailing prose is
exactly the object. -/
lemma jsonMatchSpan_embed (pre mid post : List Char)
    (hpre : pre.all (fun c => c != lbrace) = true)
    (hpost : post.all (fun c => c != rbrace) = true) :
    jsonMatchSpan (pre ++ (lbrace :: mid ++ [rbrace]) ++ post)
      = some (lbrace :: mid ++ [rbrace]) := by
  have hlb : ((lbrace != lbrace) : Bool) = false := by decide
  have hrb : ((rbrace != rbrace) : Bool) = false := by decide
  have ht : (pre ++ (lbrace :: mid ++ [rbrace]) ++ post).dropWhile (fun c => c != lbrace)
      = (lbrace :: mid ++ [rbrace]) ++ post := by
    rw [List.append_assoc, dropWhile_append_of_all _ pre _ hpre, List.cons_append]
    simp only [List.dropWhile, hlb]
    rfl
  have hrev : ((lbrace :: mid ++ [rbrace]) ++ post).reverse
      = post.reverse ++ (rbrace :: (mid.reverse ++ [lbrace])) := by
    simp
  have hu : (((lbrace :: mid ++ [rbrace]) ++ post).reverse.dropWhile (fun c => c != rbrace))
      = rbrace :: (mid.reverse ++ [lbrace]) := by
    rw [hrev, dropWhile_append_of_all _ post.reverse _ (by rw [List.all_reverse]; exact hpost)]
    simp only [List.dropWhile, hrb]
  simp only [jsonMatchSpan, ht, hu]
  simp

/-- Whatever `extractTaskJson` returns is well-formed JSON and starts
with an opening brace. -/
lemma extractTaskJson_sound (s m : List Char) (h : extractTaskJson s = some m) :
    jsonIsValid m = true ∧ m.head? = some lbrace := by
  unfold extractTaskJson jsonMatchSpan at h
  by_cases h1 : ((s.dropWhile (fun c => c != lbrace)).isEmpty) = true
  · simp [h1] at h
  · simp only [h1, Bool.false_eq_true, if_false] at h
    by_cases h2 : ((((s.dropWhile (fun c => c != lbrace)).reverse.dropWhile
        (fun c => c != rbrace)).reverse).isEmpty) = true
    · simp [h2] at h
    · simp only [h2, Bool.false_eq_true, if_false] at h
      by_cases h3 : jsonIsValid (((s.dropWhile (fun c => c != lbrace)).reverse.dropWhile
          (fun c => c != rbrace)).reverse) = true
      · rw [if_pos h3] at h
        have hm : m = ((s.dropWhile (fun c => c != lbrace)).reverse.dropWhile
            (fun c => c != rbrace)).reverse := by
          cases h
          rfl
        subst hm
        refine ⟨h3, ?_⟩
        obtain ⟨jk, hsplit⟩ : ∃ jk, (s.dropWhile (fun c => c != lbrace))
            = ((s.dropWhile (fun c => c != lbrace)).reverse.dropWhile
                (fun c => c != rbrace)).reverse ++ jk :=
          ⟨((s.dropWhile (fun c => c != lbrace)).reverse.takeWhile
              (fun c => c != rbrace)).reverse,
           by rw [← List.reverse_append, List.takeWhile_append_dropWhile,
                  List.reverse_reverse]⟩
        cases hm2 : ((s.dropWhile (fun c => c != lbrace)).reverse.dropWhile
            (fun c => c != rbrace)).reverse with
        | nil => rw [hm2] at h2; exact absurd rfl h2
        | cons c u =>
            rw [hm2] at hsplit
            have hc : ((c != lbrace) : Bool) = false :=
              dropWhile_head_false (fun x => x != lbrace) s c (u ++ jk)
                (by rw [hsplit]; rfl)
            have hcl : c = lbrace := by
              simpa using hc
            rw [hcl]
            rfl
      · rw [if_neg h3] at h
        cases h

lemma extractTaskJson_infix (s m : List Char) (h : extractTaskJson s = some m) :
    ∃ l r, s = l ++ m ++ r := by
  unfold extractTaskJson jsonMatchSpan at h
  by_cases h1 : ((s.dropWhile (fun c => c != lbrace)).isEmpty) = true
  · simp [h1] at h
  · simp only [h1, Bool.false_eq_true, if_false] at h
    by_cases h2 : ((((s.dropWhile (fun c => c != lbrace)).reverse.dropWhile
        (fun c => c != rbrace)).reverse).isEmpty) = true
    · simp [h2] at h
    · simp only [h2, Bool.false_eq_true, if_false] at h
      by_cases h3 : jsonIsValid (((s.dropWhile (fun c => c != lbrace)).reverse.dropWhile
          (fun c => c != rbrace)).reverse) = true
      · rw [if_pos h3] at h
        have hm : m = ((s.dropWhile (fun c => c != lbrace)).reverse.dropWhile
            (fun c => c != rbrace)).reverse := by
          cases h
          rfl
        subst hm
        refine ⟨s.takeWhile (fun c => c != lbrace),
                ((s.dropWhile (fun c => c != lbrace)).reverse.takeWhile
                  (fun c => c != rbrace)).reverse, ?_⟩
        conv =>
          lhs
          rw [← List.takeWhile_append_dropWhile (p := fun c => c != lbrace) (l := s)]
        rw [List.append_assoc]
        congr 1
        rw [← List.reverse_append, List.takeWhile_append_dropWhile, List.reverse_reverse]
      · rw [if_neg h3] at h
        cases h

/-- C8 counterexample: the extraction does not yield the embedded JSON
object when the surrounding prose contains a closing brace.  The body
`x\x7b"a":1\x7dy\x7d` embeds exactly one well-formed JSON object —
`\x7b"a":1\x7d`, the unique substring accepted as a JSON object — yet
the greedy regex matches from the first opening brace to the *last*
closing brace, producing `\x7b"a":1\x7dy\x7d`, which `JSON.parse`
rejects: extraction errors out instead of returning the object. -/
theorem c8_extraction_counterexample :
    (((substringsOf ['x', lbrace, '"', 'a', '"', ':', '1', rbrace, 'y', rbrace]).filter
        jsonIsValidObj)
      = [[lbrace, '"', 'a', '"', ':', '1', rbrace]])
    ∧ (jsonMatchSpan ['x', lbrace, '"', 'a', '"', ':', '1', rbrace, 'y', rbrace]
        = some [lbrace, '"', 'a', '"', ':', '1', rbrace, 'y', rbrace])
    ∧ (extractTaskJson ['x', lbrace, '"', 'a', '"', ':', '1', rbrace, 'y', rbrace]
        = none) := by
  refine ⟨by decide, by decide, by decide⟩

/-- C8 amended: extraction takes the greedy span from the first opening
brace to the last closing brace of the response body.  (1) When the
prose before the object contains no opening brace and the prose after
it contains no closing brace, the span is exactly the embedded
brace-delimited object, and (2) if that object is valid JSON the
extraction returns it unmodified.  (3) Conversely any successful
extraction returns a well-formed JSON object (brace-initial valid
JSON) occurring contiguously in the body — so when the body contains
no well-formed JSON, extraction fails with an error. -/
theorem c8_extraction_amended :
    (∀ (pre mid post : List Char),
        pre.all (fun c => c != lbrace) = true →
        post.all (fun c => c != rbrace) = true →
        jsonMatchSpan (pre ++ (lbrace :: mid ++ [rbrace]) ++ post)
          = some (lbrace :: mid ++ [rbrace]))
    ∧ (∀ (pre mid post : List Char),
        pre.all (fun c => c != lbrace) = true →
        post.all (fun c => c != rbrace) = true →
        jsonIsValid (lbrace :: mid ++ [rbrace]) = true →
        extractTaskJson (pre ++ (lbrace :: mid ++ [rbrace]) ++ post)
          = some (lbrace :: mid ++ [rbrace]))
    ∧ (∀ (s m : List Char), extractTaskJson s = some m →
        jsonIsValid m = true ∧ m.head? = some lbrace ∧ ∃ l r, s = l ++ m ++ r) := by
  refine ⟨fun pre mid post hpre hpost => jsonMatchSpan_embed pre mid post hpre hpost,
          ?_, ?_⟩
  · intro pre mid post hpre hpost hvalid
    unfold extractTaskJson
    rw [jsonMatchSpan_embed pre mid post hpre hpost]
    simp only [hvalid, if_true]
  · intro s m h
    obtain ⟨hv, hh⟩ := extractTaskJson_sound s m h
    exact ⟨hv, hh, extractTaskJson_infix s m h⟩

/-- C8 witness: the amended statement instantiated at the body
`p\x7b\x7dq` — prose `p`, the empty JSON object, prose `q` — which
extracts to exactly `\x7b\x7d`. -/
theorem c8_extraction_amended_witness :
    extractTaskJson (['p'] ++ (lbrace :: [] ++ [rbrace]) ++ ['q'])
      = some (lbrace :: [] ++ [rbrace]) :=
  c8_extraction_amended.2.1 ['p'] [] ['q'] (by decide) (by decide) (by decide)
